import Mathlib

/-!
Verification of the `ratelimits` bucket state store (`source.go`) and the
`measured_http` instrumentation decorator.

The in-memory store `inmem` wraps a Go `map[string]time.Time`; we model the
map extensionally as a function `String → Option Time`, with `Time` an
opaque timestamp value (modelled as `Int`; the store never interprets it,
and the Go zero value `time.Time{}` is modelled as `0`).  Each Go method is
translated to a state-passing function returning the updated store together
with its results.  Go `error` results are modelled as `Option GoError`:
`none` is the `nil` error (success).
-/

set_option linter.unusedVariables false

namespace Ratelimits

/-- A TAT timestamp (`time.Time`), treated opaquely by the store.
The Go zero value `time.Time{}` is modelled as `0`. -/
abbrev Time := Int

/-- A `context.Context` as the store sees it: only its cancellation state
matters for the properties under study. -/
structure Context where
  canceled : Bool
deriving DecidableEq, Repr

/-- The errors relevant to this code: the package-level sentinel
`ErrBucketNotFound` from `source.go` line 11, and Go's `context.Canceled`
(which this package imports via `context` and could in principle return). -/
inductive GoError where
  | errBucketNotFound : GoError
  | contextCanceled : GoError
deriving DecidableEq, Repr

/-- The `inmem` struct: its backing `map[string]time.Time`, modelled
extensionally.  (The `sync.RWMutex` field guards the map in Go; in this
sequential model each operation is a single atomic state transition, which
is exactly what holding the lock for the whole method body provides.) -/
structure Inmem where
  m : String → Option Time

/-- `newInmem`: a store with an empty backing map. -/
def newInmem : Inmem := ⟨fun _ => none⟩

/-- `inmem.Set`: under the write lock, `in.m[bucketKey] = tat`, then
`return nil`.  The context parameter is discarded (`_` in the Go source). -/
def Inmem.Set (inm : Inmem) (ctx : Context) (bucketKey : String) (tat : Time) :
    Inmem × Option GoError :=
  (⟨fun k => if k = bucketKey then some tat else inm.m k⟩, none)

/-- `inmem.Get`: under the read lock, `tat, ok := in.m[bucketKey]`; when
`!ok` it returns `(time.Time{}, ErrBucketNotFound)`, otherwise `(tat, nil)`.
The receiver is not mutated, so the returned state is the input state.
The context parameter is discarded (`_` in the Go source). -/
def Inmem.Get (inm : Inmem) (ctx : Context) (bucketKey : String) :
    Inmem × Time × Option GoError :=
  match inm.m bucketKey with
  | some tat => (inm, tat, none)
  | none => (inm, 0, some GoError.errBucketNotFound)

/-- `inmem.Delete`: under the write lock, `delete(in.m, bucketKey)`, then
`return nil`.  The context parameter is discarded (`_` in the Go source). -/
def Inmem.Delete (inm : Inmem) (ctx : Context) (bucketKey : String) :
    Inmem × Option GoError :=
  (⟨fun k => if k = bucketKey then none else inm.m k⟩, none)

/-- Each `Set` executes atomically (its whole body holds the exclusive
lock), so a concurrent execution of two `Set` calls on the same key is
equivalent to one of the two sequential orders; `order` selects which call
acquired the lock first. -/
def concurrentTwoSets (s : Inmem) (c1 c2 : Context) (k : String)
    (t1 t2 : Time) (order : Bool) : Inmem :=
  if order then ((s.Set c1 k t1).1.Set c2 k t2).1
  else ((s.Set c2 k t2).1.Set c1 k t1).1

end Ratelimits

namespace MeasuredHttp

/-- The method-label computation of `MeasuredHandler.ServeHTTP`: the Go
`switch` keeps `r.Method` when it is one of the nine recognized HTTP
methods and otherwise uses the catch-all label `"unknown"`. -/
def methodLabel (method : String) : String :=
  if method = "GET" ∨ method = "HEAD" ∨ method = "POST" ∨ method = "PUT" ∨
      method = "PATCH" ∨ method = "DELETE" ∨ method = "CONNECT" ∨
      method = "OPTIONS" ∨ method = "TRACE" then
    method
  else "unknown"

/-- The fixed enumerated set of recognized HTTP methods
(`http.MethodGet` … `http.MethodTrace`). -/
def recognizedMethods : List String :=
  ["GET", "HEAD", "POST", "PUT", "PATCH", "DELETE", "CONNECT", "OPTIONS", "TRACE"]

end MeasuredHttp

namespace Ratelimits

/-- C1: for every starting store, key `k` and timestamps `t1, t2`,
`Set(k, t1); Set(k, t2); Get(k)` returns `t2` with no error: `Set`
unconditionally replaces any prior value and `Get` returns the most
recently stored TAT (last-write-wins). -/
theorem set_set_get_last_write_wins (s : Inmem) (c1 c2 c3 : Context)
    (k : String) (t1 t2 : Time) :
    ((((s.Set c1 k t1).1).Set c2 k t2).1.Get c3 k).2 = (t2, none) := by
  simp [Inmem.Set, Inmem.Get]

/-- C2: for every key with no entry in the store (never set, or deleted),
`Get` fails with the `ErrBucketNotFound` error, returning the zero
timestamp only alongside that error, never as a success value. -/
theorem get_absent_fails_not_found (s : Inmem) (ctx : Context) (k : String)
    (h : s.m k = none) :
    (s.Get ctx k).2 = (0, some GoError.errBucketNotFound) := by
  simp [Inmem.Get, h]

/-- C2 witness: on the fresh store, `Get "login:alice"` fails with
`ErrBucketNotFound`. -/
theorem get_absent_fails_not_found_witness :
    newInmem.m "login:alice" = none ∧
    (newInmem.Get ⟨false⟩ "login:alice").2 = (0, some GoError.errBucketNotFound) :=
  ⟨rfl, get_absent_fails_not_found newInmem ⟨false⟩ "login:alice" rfl⟩

/-- C3: for every starting store, key `k` and timestamp `t`,
`Set(k, t); Delete(k); Get(k)` fails with `ErrBucketNotFound`: `Delete`
removes the stored state for the key. -/
theorem set_delete_get_fails_not_found (s : Inmem) (c1 c2 c3 : Context)
    (k : String) (t : Time) :
    (((s.Set c1 k t).1.Delete c2 k).1.Get c3 k).2 =
      (0, some GoError.errBucketNotFound) := by
  simp [Inmem.Set, Inmem.Delete, Inmem.Get]

/-- C4: `Delete` on an absent key succeeds (returns `nil` error) and is a
no-op: the backing map is extensionally unchanged. -/
theorem delete_absent_succeeds (s : Inmem) (ctx : Context) (k : String)
    (h : s.m k = none) :
    (s.Delete ctx k).2 = none ∧ ∀ k2, (s.Delete ctx k).1.m k2 = s.m k2 := by
  refine ⟨rfl, fun k2 => ?_⟩
  by_cases hk : k2 = k
  · subst hk; simp [Inmem.Delete, h]
  · simp [Inmem.Delete, hk]

/-- C4 witness: deleting `"absent"` from the fresh store succeeds and
leaves the map unchanged. -/
theorem delete_absent_succeeds_witness :
    newInmem.m "absent" = none ∧
    ((newInmem.Delete ⟨false⟩ "absent").2 = none ∧
      ∀ k2, (newInmem.Delete ⟨false⟩ "absent").1.m k2 = newInmem.m k2) :=
  ⟨rfl, delete_absent_succeeds newInmem ⟨false⟩ "absent" rfl⟩

/-- C5: whenever `Get` fails (returns a non-`nil` error), the error is the
single package-level sentinel `ErrBucketNotFound` — the same value for
every such failure. -/
theorem get_error_is_the_sentinel (s : Inmem) (ctx : Context) (k : String)
    (e : GoError) (h : (s.Get ctx k).2.2 = some e) :
    e = GoError.errBucketNotFound := by
  cases hm : s.m k <;> simp [Inmem.Get, hm] at h
  exact h.symm

/-- C5 witness: on the fresh store, `Get "a"` fails, and that error is the
sentinel. -/
theorem get_error_is_the_sentinel_witness :
    (newInmem.Get ⟨false⟩ "a").2.2 = some GoError.errBucketNotFound ∧
    GoError.errBucketNotFound = GoError.errBucketNotFound :=
  ⟨rfl, get_error_is_the_sentinel newInmem ⟨false⟩ "a"
    GoError.errBucketNotFound rfl⟩

/-- C6 counterexample: with a cancelled context, `inmem.Set` still
proceeds and returns `nil` (no error) — it does not fail with a
cancellation error.  The Go methods discard their context parameter. -/
theorem set_on_cancelled_context_still_succeeds :
    (newInmem.Set ⟨true⟩ "k" 0).2 = none ∧
    (newInmem.Set ⟨true⟩ "k" 0).2 ≠ some GoError.contextCanceled :=
  ⟨rfl, by simp [Inmem.Set]⟩

/-- C6 amended: every operation of the in-memory implementation accepts a
context parameter, but ignores it entirely: each operation's outcome is
identical for any two contexts (in particular a cancelled one), and it
never returns a cancellation error. -/
theorem operations_accept_but_ignore_context (s : Inmem) (c1 c2 : Context)
    (k : String) (t : Time) :
    s.Set c1 k t = s.Set c2 k t ∧ s.Get c1 k = s.Get c2 k ∧
      s.Delete c1 k = s.Delete c2 k :=
  ⟨rfl, rfl, rfl⟩

/-- C7: a concurrent execution of `Set(k, t1)` and `Set(k, t2)` — which
the exclusive lock serializes into one of the two orders — leaves a
subsequent `Get(k)` returning exactly one of `t1` or `t2` with no error,
never a corrupted or partial value. -/
theorem concurrent_sets_serialize_to_one_value (s : Inmem) (c1 c2 c3 : Context)
    (k : String) (t1 t2 : Time) (order : Bool) :
    ((concurrentTwoSets s c1 c2 k t1 t2 order).Get c3 k).2 = (t1, none) ∨
    ((concurrentTwoSets s c1 c2 k t1 t2 order).Get c3 k).2 = (t2, none) := by
  cases order
  · left; simp [concurrentTwoSets, Inmem.Set, Inmem.Get]
  · right; simp [concurrentTwoSets, Inmem.Set, Inmem.Get]

/-- C8: the method label recorded by `MeasuredHandler.ServeHTTP` equals
the request's method when it is one of the nine recognized HTTP methods,
and is the catch-all `"unknown"` for any other method string. -/
theorem serve_http_method_label_spec (m : String) :
    (m ∈ MeasuredHttp.recognizedMethods → MeasuredHttp.methodLabel m = m) ∧
    (m ∉ MeasuredHttp.recognizedMethods →
      MeasuredHttp.methodLabel m = "unknown") := by
  constructor
  · intro h
    simp only [MeasuredHttp.recognizedMethods, List.mem_cons,
      List.not_mem_nil, or_false] at h
    unfold MeasuredHttp.methodLabel
    rw [if_pos h]
  · intro h
    simp only [MeasuredHttp.recognizedMethods, List.mem_cons,
      List.not_mem_nil, or_false] at h
    unfold MeasuredHttp.methodLabel
    rw [if_neg h]

/-- C8 witness: `"GET"` is kept as its own label and `"FOO"` is folded to
`"unknown"`. -/
theorem serve_http_method_label_spec_witness :
    MeasuredHttp.methodLabel "GET" = "GET" ∧
    MeasuredHttp.methodLabel "FOO" = "unknown" :=
  ⟨(serve_http_method_label_spec "GET").1 (by decide),
   (serve_http_method_label_spec "FOO").2 (by decide)⟩

/-- C9: for every store state, context, key and timestamp, `Set` and
`Delete` return `nil` error, and any error `Get` returns is
`ErrBucketNotFound` — the in-memory backend has no transient-failure
outcome at all. -/
theorem inmem_never_fails_transiently (s : Inmem) (ctx : Context)
    (k : String) (t : Time) :
    (s.Set ctx k t).2 = none ∧ (s.Delete ctx k).2 = none ∧
    ∀ e, (s.Get ctx k).2.2 = some e → e = GoError.errBucketNotFound := by
  refine ⟨rfl, rfl, fun e h => ?_⟩
  cases hm : s.m k <;> simp [Inmem.Get, hm] at h
  exact h.symm

/-- C9 witness: at the fresh store and key `"k"`, `Set` and `Delete`
succeed and `Get`'s error is the sentinel. -/
theorem inmem_never_fails_transiently_witness :
    (newInmem.Get ⟨false⟩ "k").2.2 = some GoError.errBucketNotFound ∧
    (newInmem.Set ⟨false⟩ "k" 1).2 = none ∧
    (newInmem.Delete ⟨false⟩ "k").2 = none ∧
    GoError.errBucketNotFound = GoError.errBucketNotFound :=
  ⟨rfl, (inmem_never_fails_transiently newInmem ⟨false⟩ "k" 1).1,
   (inmem_never_fails_transiently newInmem ⟨false⟩ "k" 1).2.1,
   (inmem_never_fails_transiently newInmem ⟨false⟩ "k" 1).2.2
     GoError.errBucketNotFound rfl⟩

/-- C10: operations touch only their own key: for `k2 ≠ k`, `Set(k, t)`
and `Delete(k)` leave the mapping at `k2` unchanged, and `Get(k)` leaves
the entire store state unchanged. -/
theorem operations_touch_only_their_key (s : Inmem) (ctx : Context)
    (k k2 : String) (t : Time) (h : k2 ≠ k) :
    ((s.Set ctx k t).1).m k2 = s.m k2 ∧
    ((s.Delete ctx k).1).m k2 = s.m k2 ∧
    (s.Get ctx k).1 = s := by
  refine ⟨by simp [Inmem.Set, h], by simp [Inmem.Delete, h], ?_⟩
  cases hm : s.m k <;> simp [Inmem.Get, hm]

/-- C10 witness: with `"b" ≠ "a"`, `Set "a"` and `Delete "a"` on the fresh
store leave the entry at `"b"` unchanged, and `Get "a"` returns the store
unchanged. -/
theorem operations_touch_only_their_key_witness :
    "b" ≠ "a" ∧
    (((newInmem.Set ⟨false⟩ "a" 5).1).m "b" = newInmem.m "b" ∧
     ((newInmem.Delete ⟨false⟩ "a").1).m "b" = newInmem.m "b" ∧
     (newInmem.Get ⟨false⟩ "a").1 = newInmem) :=
  ⟨by decide, operations_touch_only_their_key newInmem ⟨false⟩ "a" "b" 5
    (by decide)⟩

end Ratelimits
